import Mathlib

/-!
Verification of the Web-Audio-Sampler core against its specification.

The development shallowly embeds the two algorithmic subsystems:

* the Sample Pad Engine (`src/Assignment_Solution/js/SamplerEngine.js`,
  duplicated as TypeScript in `src/unnamed/part_001`): pad records, the
  `loadSound` / `play` / `setTrimPoints` / `resetPad` / `clearAll`
  operations, and the reachable-state relation they generate;
* the Waveform / Trim subsystem: the trim-bar drag state machine
  (`src/Assignment_Solution/js/TrimbarsDrawer.js` and the variant in
  `src/unnamed/part_000`) and the peak-envelope extractors
  (`src/Assignment_Solution/js/WaveformDrawer.js` and
  `src/frontend/src/lib/WaveformDrawer.ts`).

Times, gains, sample values and pixel coordinates are embedded as `ℚ`
(the claims under scrutiny are ordering / clamping / exact-arithmetic
properties, for which exact rationals are the faithful shallow model of
JS numbers away from the IEEE special values).  Where the JS special
values Infinity / NaN are themselves the point of a claim (the waveform
scale coefficient), a dedicated `JSNum` type models them explicitly.
-/

/-! ## Sample Pad Engine (SamplerEngine.js / part_001)

A decoded audio buffer, as far as the engine reads it: only its
`duration` (seconds) is consulted by the engine operations. -/

structure ABuffer where
  duration : ℚ
deriving DecidableEq

/-- One pad record, exactly the object literal built in
`initializePads`: `{ index, buffer, name, loaded, trimStart, trimEnd, gain }`. -/
structure Pad where
  index : ℕ
  buffer : Option ABuffer
  name : String
  loaded : Bool
  trimStart : ℚ
  trimEnd : ℚ
  gain : ℚ
deriving DecidableEq

/-- The engine state: the `pads` array.  `maxPads = 16`. -/
structure EngineState where
  pads : List Pad
deriving DecidableEq

def maxPads : ℤ := 16

/-- The default (placeholder) name of slot `i`, the backtick string
used in `initializePads` and `loadSound`. -/
def defaultPadName (i : ℕ) : String := "Pad " ++ toString (i + 1)

/-- Source `initializePads`: sixteen empty pads with
`trimStart = 0`, `trimEnd = 1`, `gain = 1.0`. -/
def initializePads : List Pad :=
  (List.range 16).map (fun i =>
    { index := i, buffer := none, name := defaultPadName i, loaded := false,
      trimStart := 0, trimEnd := 1, gain := 1 })

/-- The state built by the engine constructor. -/
def initState : EngineState := ⟨initializePads⟩

/-- Name resolution in `loadSound`: `name || defaultName` — a supplied
name is used unless it is JS-falsy (null or the empty string). -/
def resolveName (nm : Option String) (i : ℕ) : String :=
  match nm with
  | some n => if n = "" then defaultPadName i else n
  | none => defaultPadName i

/-- Source `loadSound` (success path: the Decoded Buffer Source yielded
`b`): rejects an index outside `[0, maxPads)` (the JS throws), then
overwrites the pad's `buffer`, `name`, `loaded` and `trimEnd` fields.
`trimStart` and `gain` are not written. -/
def loadSound (s : EngineState) (padIndex : ℤ) (b : ABuffer)
    (nm : Option String) : Option EngineState :=
  if padIndex < 0 ∨ maxPads ≤ padIndex then none
  else
    match s.pads[padIndex.toNat]? with
    | none => none
    | some pad =>
        some ⟨s.pads.set padIndex.toNat
          { pad with buffer := some b, name := resolveName nm padIndex.toNat,
                     loaded := true, trimEnd := b.duration }⟩

/-- Source `_playBuffer`: the `(offset, duration)` pair handed to
`source.start(0, startTime, endTime - startTime)` after the two
clamping lines
`startTime = Math.max(0, Math.min(startTime, buffer.duration))` and
`endTime = Math.max(startTime, Math.min(endTime, buffer.duration))`. -/
def playBuffer (dur startTime endTime : ℚ) : ℚ × ℚ :=
  let s := max 0 (min startTime dur)
  let e := max s (min endTime dur)
  (s, e - s)

/-- Source `play`: `none` (a warning, no audio) for an invalid index or
an unloaded pad; otherwise the playback request issued by `_playBuffer`.
`play` never mutates the engine state. -/
def play (s : EngineState) (padIndex : ℤ) : Option (ℚ × ℚ) :=
  if padIndex < 0 ∨ maxPads ≤ padIndex then none
  else
    match s.pads[padIndex.toNat]? with
    | none => none
    | some pad =>
        if pad.loaded then
          match pad.buffer with
          | some b => some (playBuffer b.duration pad.trimStart pad.trimEnd)
          | none => none
        else none

/-- Source `setTrimPoints`: no-op for an invalid index or an unloaded
pad (the part_001 variant checks `!pad.loaded || !pad.buffer`; the JS
variant checks only `!pad.loaded` and then reads `pad.buffer.duration`,
which agrees on every state where loaded pads hold a buffer — an
invariant of all reachable states, proved below).  Otherwise assigns
`trimStart = Math.max(0, startTime)` and
`trimEnd = Math.min(pad.buffer.duration, endTime)` — direct
assignments, no reordering. -/
def setTrimPoints (s : EngineState) (padIndex : ℤ) (startTime endTime : ℚ) :
    EngineState :=
  if padIndex < 0 ∨ maxPads ≤ padIndex then s
  else
    match s.pads[padIndex.toNat]? with
    | none => s
    | some pad =>
        if pad.loaded then
          match pad.buffer with
          | some b =>
              ⟨s.pads.set padIndex.toNat
                { pad with trimStart := max 0 startTime,
                           trimEnd := min b.duration endTime }⟩
          | none => s
        else s

/-- Source `getPad`: `null` outside `[0, maxPads)`, else the pad. -/
def getPad (s : EngineState) (padIndex : ℤ) : Option Pad :=
  if padIndex < 0 ∨ maxPads ≤ padIndex then none
  else s.pads[padIndex.toNat]?

/-- Source `resetPad`: for a loaded pad with a buffer, `trimStart = 0`
and `trimEnd = pad.buffer.duration`; otherwise no-op. -/
def resetPad (s : EngineState) (padIndex : ℤ) : EngineState :=
  if padIndex < 0 ∨ maxPads ≤ padIndex then s
  else
    match s.pads[padIndex.toNat]? with
    | none => s
    | some pad =>
        if pad.loaded then
          match pad.buffer with
          | some b =>
              ⟨s.pads.set padIndex.toNat
                { pad with trimStart := 0, trimEnd := b.duration }⟩
          | none => s
        else s

/-- Source `clearAll`: for every pad sets `buffer = null`,
`loaded = false`, `trimStart = 0`, `trimEnd = 1`.  The `name`, `gain`
and `index` fields are not written. -/
def clearAll (s : EngineState) : EngineState :=
  ⟨s.pads.map (fun pad =>
    { pad with buffer := none, loaded := false, trimStart := 0, trimEnd := 1 })⟩

/-- States reachable through the public mutating operations from the
freshly constructed engine.  `play`, `getPad` and `getAllPads` do not
mutate the state, so they contribute no transitions. -/
inductive Reachable : EngineState → Prop where
  | init : Reachable initState
  | load {s s' : EngineState} (i : ℤ) (b : ABuffer) (nm : Option String) :
      Reachable s → loadSound s i b nm = some s' → Reachable s'
  | trim {s : EngineState} (i : ℤ) (st en : ℚ) :
      Reachable s → Reachable (setTrimPoints s i st en)
  | reset {s : EngineState} (i : ℤ) :
      Reachable s → Reachable (resetPad s i)
  | clear {s : EngineState} :
      Reachable s → Reachable (clearAll s)

/-! ## Trim-Bar Controller

Two near-identical implementations exist: `TrimbarsDrawer.js` under
`Assignment_Solution` (hit radius 25 at reference height 18, clamp-on-
move and clamp-on-release) and the TypeScript variant in
`src/unnamed/part_000` (hit radius 60 at reference height 0,
independent selection, swap-on-move).  Both are embedded, in the
namespaces `Assign` and `Part0`.  Only the state touched by the claims
is modelled; the pure drawing calls (`clear`, `draw`) do not change the
bar state. -/

structure TrimBar where
  x : ℚ
  color : String
  selectedColor : String
  selected : Bool
  dragged : Bool
deriving DecidableEq

structure TrimState where
  leftTrimBar : TrimBar
  rightTrimBar : TrimBar
  canvasWidth : ℚ
  canvasHeight : ℚ
deriving DecidableEq

/-- The constructor's bar colours. -/
def greenColor : String := "#00ff00"

/-- Source `utils.distance` compares a Euclidean distance
`Math.sqrt(dx*dx + dy*dy)` against a positive threshold `thr`; since
both sides are non-negative and squaring is monotone, the comparison is
embedded as the equivalent exact comparison of squares. -/
def distLt (x1 y1 x2 y2 thr : ℚ) : Bool :=
  decide ((x2 - x1) * (x2 - x1) + (y2 - y1) * (y2 - y1) < thr * thr)

namespace Assign

/-- First block of `highLightTrimBarsWhenClose`
(`TrimbarsDrawer.js`): the left bar is selected iff
`distance(mouse, (left.x, 18)) < 25 && !rightTrimBar.selected`,
otherwise deselected and recoloured green. -/
def hlLeft (mx my : ℚ) (s : TrimState) : TrimState :=
  if distLt mx my s.leftTrimBar.x 18 25 && !s.rightTrimBar.selected then
    { s with leftTrimBar :=
        { s.leftTrimBar with color := s.leftTrimBar.selectedColor, selected := true } }
  else
    { s with leftTrimBar :=
        { s.leftTrimBar with color := greenColor, selected := false } }

/-- Second block of `highLightTrimBarsWhenClose`: the right bar is
selected iff `distance(mouse, (right.x, 18)) < 25 && !leftTrimBar.selected`,
where `leftTrimBar.selected` has already been updated by the first block. -/
def hlRight (mx my : ℚ) (s : TrimState) : TrimState :=
  if distLt mx my s.rightTrimBar.x 18 25 && !s.leftTrimBar.selected then
    { s with rightTrimBar :=
        { s.rightTrimBar with color := s.rightTrimBar.selectedColor, selected := true } }
  else
    { s with rightTrimBar :=
        { s.rightTrimBar with color := greenColor, selected := false } }

/-- Source `highLightTrimBarsWhenClose` (Assignment variant): the two
sequential blocks. -/
def highLightTrimBarsWhenClose (s : TrimState) (mx my : ℚ) : TrimState :=
  hlRight mx my (hlLeft mx my s)

/-- Source `startDrag` (Assignment variant). -/
def startDrag (s : TrimState) : TrimState :=
  let s1 := if s.leftTrimBar.selected then
      { s with leftTrimBar := { s.leftTrimBar with dragged := true } }
    else s
  if s1.rightTrimBar.selected then
    { s1 with rightTrimBar := { s1.rightTrimBar with dragged := true } }
  else s1

/-- Source `stopDrag` (Assignment variant): each dragged bar is
released (dragged/selected cleared) and clamped so the left bar never
ends strictly right of the right bar; the two blocks run sequentially,
the second reading the left position the first may have just written. -/
def stopDrag (s : TrimState) : TrimState :=
  let s1 :=
    if s.leftTrimBar.dragged then
      { s with leftTrimBar :=
          { s.leftTrimBar with
            dragged := false
            selected := false
            x := (if s.rightTrimBar.x < s.leftTrimBar.x then s.rightTrimBar.x
                  else s.leftTrimBar.x) } }
    else s
  if s1.rightTrimBar.dragged then
    { s1 with rightTrimBar :=
        { s1.rightTrimBar with
          dragged := false
          selected := false
          x := (if s1.rightTrimBar.x < s1.leftTrimBar.x then s1.leftTrimBar.x
                else s1.rightTrimBar.x) } }
  else s1

/-- Source `moveTrimBars` (Assignment variant): re-runs the hit test,
clamps the pointer x to `[0, canvasWidth]`, then moves each dragged bar
only if it stays strictly on its own side of the other bar (the nested
`if (dragged) { if (clampedX < other.x) ... }` is written as a
conjunction).  The trailing `clear(); draw();` calls do not touch the
bar state. -/
def moveTrimBars (s : TrimState) (mx my : ℚ) : TrimState :=
  let s1 := highLightTrimBarsWhenClose s mx my
  let cx := max 0 (min mx s1.canvasWidth)
  let s2 :=
    if s1.leftTrimBar.dragged ∧ cx < s1.rightTrimBar.x then
      { s1 with leftTrimBar := { s1.leftTrimBar with x := cx } }
    else s1
  if s2.rightTrimBar.dragged ∧ s2.leftTrimBar.x < cx then
    { s2 with rightTrimBar := { s2.rightTrimBar with x := cx } }
  else s2

end Assign

namespace Part0

/-- Source `highLightTrimBarsWhenClose` (part_000 variant): the two
selections are computed independently,
`left.selected = distance((left.x,0), mouse) < 60` and likewise for the
right bar; colours follow the selection flags. -/
def highLightTrimBarsWhenClose (s : TrimState) (mx my : ℚ) : TrimState :=
  let lsel := distLt s.leftTrimBar.x 0 mx my 60
  let rsel := distLt s.rightTrimBar.x 0 mx my 60
  { s with
    leftTrimBar := { s.leftTrimBar with
      selected := lsel
      color := (if lsel then s.leftTrimBar.selectedColor else greenColor) }
    rightTrimBar := { s.rightTrimBar with
      selected := rsel
      color := (if rsel then s.rightTrimBar.selectedColor else greenColor) } }

/-- Source `startDrag` (part_000 variant). -/
def startDrag (s : TrimState) : TrimState :=
  let s1 := if s.leftTrimBar.selected then
      { s with leftTrimBar := { s.leftTrimBar with dragged := true } }
    else s
  if s1.rightTrimBar.selected then
    { s1 with rightTrimBar := { s1.rightTrimBar with dragged := true } }
  else s1

/-- Source `stopDrag` (part_000 variant): only clears the drag flags. -/
def stopDrag (s : TrimState) : TrimState :=
  { s with leftTrimBar := { s.leftTrimBar with dragged := false },
           rightTrimBar := { s.rightTrimBar with dragged := false } }

/-- Source `moveTrimBars` (part_000 variant): re-runs the hit test,
moves each dragged bar to the raw pointer x, then swaps the two x
coordinates when they crossed
(`[left.x, right.x] = [right.x, left.x]` reads both old values). -/
def moveTrimBars (s : TrimState) (mx my : ℚ) : TrimState :=
  let s1 := highLightTrimBarsWhenClose s mx my
  let s2 :=
    if s1.leftTrimBar.dragged then
      { s1 with leftTrimBar := { s1.leftTrimBar with x := mx } }
    else s1
  let s3 :=
    if s2.rightTrimBar.dragged then
      { s2 with rightTrimBar := { s2.rightTrimBar with x := mx } }
    else s2
  if s3.rightTrimBar.x < s3.leftTrimBar.x then
    { s3 with leftTrimBar := { s3.leftTrimBar with x := s3.rightTrimBar.x },
              rightTrimBar := { s3.rightTrimBar with x := s3.leftTrimBar.x } }
  else s3

end Part0

/-! ## Peak Extractor (WaveformDrawer.js chunked version)

`_getPeaksChunked` partitions the pixel range into chunks of 300 and
computes, per pixel `i`, one envelope entry; the chunking (via
`requestAnimationFrame`) only interleaves the same per-pixel
computations, so the envelope entries themselves are modelled directly. -/

/-- Source `const sampleSize = Math.ceil(buffer.length / this.displayWidth)`
for a natural `len` and a positive width `W`. -/
def sampleSize (len W : ℕ) : ℕ := (len + W - 1) / W

/-- Source `this.sampleStep = this.sampleStep || ~~(sampleSize / 10)`:
the stride derived when no explicit `sampleStep` was supplied
(the constructor initializes it to `null`, which is falsy, as is an
explicitly supplied `0`).  `~~` truncates, which on naturals is
integer division. -/
def derivedSampleStep (size : ℕ) : ℕ := size / 10

/-- The value of the inner-loop counter of
`for (let j = start; j < end; j += this.sampleStep)` after `n`
executions of the loop body. -/
def innerLoopJ (start step : ℕ) : ℕ → ℕ
  | 0 => start
  | n + 1 => innerLoopJ start step n + step

/-- Counter values visited by `for (let j = start; j < e; j += step)`,
bounded by an explicit iteration budget (structural recursion so the
kernel can evaluate it).  For `step ≥ 1` a budget of `e - j` iterations
always suffices, so `strideIndices` below is exactly the JS loop; for
`step = 0` the JS loop does not terminate (the subject of a theorem
below) and the budget merely truncates. -/
def strideIndicesAux : ℕ → ℕ → ℕ → ℕ → List ℕ
  | 0, _, _, _ => []
  | fuel + 1, e, step, j =>
      if j < e then j :: strideIndicesAux fuel e step (j + step) else []

/-- The list of inner-loop counter values visited by
`for (let j = start; j < e; j += step)` for a positive stride `step`:
`j, j+step, …` strictly below `e`. -/
def strideIndices (e step j : ℕ) : List ℕ := strideIndicesAux (e - j) e step j

/-- `Math.abs` on the embedded numbers. -/
def jsAbs (q : ℚ) : ℚ := if q < 0 then -q else q

/-- Source inner loop of `processChunk` for one channel: starting from
`channelPeak = 0`, each visited sample updates the peak with
`if (absValue > channelPeak) channelPeak = absValue`, i.e. a running
`max` of absolute values.  In JS, reads past the channel's end yield
`undefined`, whose `Math.abs` is NaN; `NaN > channelPeak` is false, so
such reads never update the peak — they are modelled by restricting the
visited indices to the channel's length. -/
def channelPeak (chan : List ℚ) (start size step : ℕ) : ℚ :=
  ((strideIndices (start + size) step start).filter (fun j => j < chan.length)).foldl
    (fun peak j => max peak (jsAbs (chan.getD j 0))) 0

/-- Source body of `processChunk` for pixel `i`: over all channels,
`peak += channelPeak / channels`, starting from `peak = 0`. -/
def processEntry (chans : List (List ℚ)) (i size step : ℕ) : ℚ :=
  chans.foldl
    (fun peak chan => peak + channelPeak chan (i * size) size step / (chans.length : ℚ))
    0

/-- The full envelope produced by `_getPeaksChunked` on a buffer with
channel data `chans` and frame count `len`, at display width `W`, with
stride `step`: entry `i` for each pixel `i < W`
(`this.peaks = new Float32Array(this.displayWidth)`). -/
def assignmentPeaks (chans : List (List ℚ)) (len W step : ℕ) : List ℚ :=
  (List.range W).map (fun i => processEntry chans i (sampleSize len W) step)

/-- Stated from the spec's words for the refinement claim C6: "for each
block and channel, compute the maximum absolute sample value (optionally
subsampled by a stride …); the block's envelope value is the mean of
its per-channel peaks" — the arithmetic mean, over all channels, of the
per-channel stride-subsampled maximum absolute sample of block `i`. -/
def specEnvelopeEntry (chans : List (List ℚ)) (i size step : ℕ) : ℚ :=
  (chans.map (fun chan => channelPeak chan (i * size) size step)).sum
    / (chans.length : ℚ)

/-- Source `getPeaksAsync` of the frontend variant
(`src/frontend/src/lib/WaveformDrawer.ts`): uses channel 0 only
(`const rawData = buffer.getChannelData(0)`), block size
`Math.floor(rawData.length / samples)`, and for each pixel the
arithmetic mean of the absolute sample values of its block
(`sum += Math.abs(...); peaks[i] = sum / blockSize`). -/
def frontendPeaks (raw : List ℚ) (W : ℕ) : List ℚ :=
  let blockSize := raw.length / W
  (List.range W).map (fun i =>
    ((List.range blockSize).map (fun j => jsAbs (raw.getD (i * blockSize + j) 0))).sum
      / (blockSize : ℚ))

/-! ## Waveform Renderer (`_drawWaveform`)

The scale coefficient `coef = height / (2 * max(peaks))` and the vertex
offsets `Math.round(peaks[i] * coef)` are computed with JS number
semantics, where division by zero and `0 * Infinity` produce the IEEE
special values rather than raising.  `JSNum` models exactly these. -/

inductive JSNum where
  | num (q : ℚ)
  | posInf
  | negInf
  | nan
deriving DecidableEq

/-- JS multiplication on the modelled values (IEEE: anything with NaN
is NaN, `0 * ±Infinity` is NaN, signed infinities otherwise). -/
def jsMul : JSNum → JSNum → JSNum
  | .nan, _ => .nan
  | _, .nan => .nan
  | .num a, .num b => .num (a * b)
  | .num a, .posInf => if 0 < a then .posInf else if a < 0 then .negInf else .nan
  | .num a, .negInf => if 0 < a then .negInf else if a < 0 then .posInf else .nan
  | .posInf, .num b => if 0 < b then .posInf else if b < 0 then .negInf else .nan
  | .negInf, .num b => if 0 < b then .negInf else if b < 0 then .posInf else .nan
  | .posInf, .posInf => .posInf
  | .posInf, .negInf => .negInf
  | .negInf, .posInf => .negInf
  | .negInf, .negInf => .posInf

/-- JS division on the modelled values (IEEE: `a / 0` is `±Infinity`
for `a ≠ 0` and NaN for `a = 0`; JS has a signed zero which `ℚ` does
not model — the divisor in the claims below is the literal `+0`). -/
def jsDiv : JSNum → JSNum → JSNum
  | .nan, _ => .nan
  | _, .nan => .nan
  | .num a, .num b =>
      if b = 0 then (if 0 < a then .posInf else if a < 0 then .negInf else .nan)
      else .num (a / b)
  | .num _, .posInf => .num 0
  | .num _, .negInf => .num 0
  | .posInf, .num b => if 0 ≤ b then .posInf else .negInf
  | .negInf, .num b => if 0 ≤ b then .negInf else .posInf
  | .posInf, _ => .nan
  | .negInf, _ => .nan

/-- `Math.round` (round half towards positive infinity) on the modelled
values; NaN and the infinities round to themselves. -/
def jsRound : JSNum → JSNum
  | .num q => .num ((⌊q + 1 / 2⌋ : ℤ) : ℚ)
  | x => x

/-- JS `>` comparison: false whenever either side is NaN. -/
def jsGt : JSNum → JSNum → Bool
  | .nan, _ => false
  | _, .nan => false
  | .num a, .num b => decide (b < a)
  | .num _, .posInf => false
  | .num _, .negInf => true
  | .posInf, .num _ => true
  | .posInf, .posInf => false
  | .posInf, .negInf => true
  | .negInf, _ => false

/-- Source `max(values)` of `WaveformDrawer`: starts from `-Infinity`
and keeps every strictly greater element. -/
def wdMax (values : List ℚ) : JSNum :=
  values.foldl (fun m v => if jsGt (.num v) m then .num v else m) .negInf

/-- Source `const coef = height / (2 * this.max(this.peaks))` of
`_drawWaveform` — identical in `WaveformDrawer.js` and the frontend
`WaveformDrawer.ts`, in both cases with no guard on `max(peaks)`. -/
def drawCoef (peaks : List ℚ) (height : ℚ) : JSNum :=
  jsDiv (.num height) (jsMul (.num 2) (wdMax peaks))

/-- Source `const h = Math.round(this.peaks[i] * coef)`: the vertical
offset of polyline vertex `i` from the half-height center line. -/
def vertexOffset (peaks : List ℚ) (height : ℚ) (i : ℕ) : JSNum :=
  jsRound (jsMul (.num (peaks.getD i 0)) (drawCoef peaks height))

/-! ## Concrete instances used by witnesses and counterexamples -/

/-- A 2-second decoded buffer. -/
def bufTwo : ABuffer := ⟨2⟩

/-- The pad record produced by loading `bufTwo` as "kick" onto fresh pad 0. -/
def kickPad : Pad :=
  { index := 0, buffer := some bufTwo, name := "kick", loaded := true,
    trimStart := 0, trimEnd := 2, gain := 1 }

/-- A fresh engine with a 2-second sample loaded on pad 0. -/
def sampleState : EngineState :=
  (loadSound initState 0 bufTwo (some "kick")).getD initState

/-- `sampleState` after `setTrimPoints(0, 3, -1)` — an unordered,
out-of-range trim request on the loaded pad. -/
def cexTrimState : EngineState := setTrimPoints sampleState 0 3 (-1)

/-- `sampleState` with the trim window moved to `[3/2, 2]`, about to be
reloaded with a shorter buffer. -/
def reState : EngineState := setTrimPoints sampleState 0 (3 / 2) 2

/-- Pad 0 of `reState`, exactly as `setTrimPoints` stored it
(`trimStart = max 0 (3/2) = 3/2`, `trimEnd = min 2 2 = 2`). -/
def rePad : Pad :=
  { index := 0, buffer := some bufTwo, name := "kick", loaded := true,
    trimStart := max 0 (3 / 2), trimEnd := min bufTwo.duration 2, gain := 1 }

/-- A trim-bar pair with the left bar mid-drag, for the drag-release
witness. -/
def tbInit : TrimState :=
  { leftTrimBar := { x := 10, color := "#00ff00", selectedColor := "#ff6b6b",
                     selected := false, dragged := true },
    rightTrimBar := { x := 200, color := "#00ff00", selectedColor := "#ff6b6b",
                      selected := false, dragged := false },
    canvasWidth := 300, canvasHeight := 150 }

/-- A trim-bar pair with the two bars 10 px apart and nothing selected,
for the hit-test counterexample. -/
def closeBars : TrimState :=
  { leftTrimBar := { x := 100, color := "#00ff00", selectedColor := "#ff6b6b",
                     selected := false, dragged := false },
    rightTrimBar := { x := 110, color := "#00ff00", selectedColor := "#ff6b6b",
                      selected := false, dragged := false },
    canvasWidth := 300, canvasHeight := 150 }


/-! ## Theorems -/

/-- C2: for a valid index and a loaded pad, `setTrimPoints(i, s, e)`
sets `trimStart` to `max(0, s)` and `trimEnd` to
`min(buffer.duration, e)` exactly — direct assignment of the updated
pad into the array, every other field and pad untouched and no
reordering when `s > e`; for an invalid index or an unloaded pad it is
a no-op returning the state unchanged. -/
theorem setTrimPoints_exact (s : EngineState) (i : ℤ) (st en : ℚ) :
    (∀ pad b, ¬(i < 0 ∨ maxPads ≤ i) → s.pads[i.toNat]? = some pad →
      pad.loaded = true → pad.buffer = some b →
      setTrimPoints s i st en =
        ⟨s.pads.set i.toNat
          { pad with trimStart := max 0 st, trimEnd := min b.duration en }⟩) ∧
    ((i < 0 ∨ maxPads ≤ i) → setTrimPoints s i st en = s) ∧
    (∀ pad, s.pads[i.toNat]? = some pad → pad.loaded = false →
      setTrimPoints s i st en = s) := by
  refine ⟨?_, ?_, ?_⟩
  · intro pad b hv hget hl hb
    simp [setTrimPoints, if_neg hv, hget, hl, hb]
  · intro h
    simp [setTrimPoints, if_pos h]
  · intro pad hget hl
    by_cases hv : i < 0 ∨ maxPads ≤ i
    · simp [setTrimPoints, if_pos hv]
    · simp [setTrimPoints, if_neg hv, hget, hl]

/-- Witness for C2 at a concrete state: the loaded 2-second pad of
`sampleState` receives the unordered request `(3, -1)` and stores
`trimStart = max 0 3`, `trimEnd = min 2 (-1)` verbatim. -/
theorem setTrimPoints_exact_witness :
    setTrimPoints sampleState 0 3 (-1) =
      ⟨sampleState.pads.set (0 : ℤ).toNat
        { kickPad with trimStart := max 0 3, trimEnd := min bufTwo.duration (-1) }⟩ :=
  (setTrimPoints_exact sampleState 0 3 (-1)).1 kickPad bufTwo
    (by decide) rfl rfl rfl

/-- C3: `play` on a loaded pad requests the window with effective start
`clamp(trimStart, 0, duration)`, effective end
`max(effectiveStart, min(trimEnd, duration))` and length end − start,
which is never negative; and on the 2-second pad trimmed to
`[0.5, 1.5]` the request is exactly offset 0.5 s, length 1.0 s. -/
theorem play_trim_window :
    (∀ dur st en : ℚ,
      (playBuffer dur st en).1 = max 0 (min st dur) ∧
      (playBuffer dur st en).1 + (playBuffer dur st en).2 =
        max (max 0 (min st dur)) (min en dur) ∧
      0 ≤ (playBuffer dur st en).2) ∧
    (∀ (s : EngineState) (i : ℤ) (pad : Pad) (b : ABuffer),
      ¬(i < 0 ∨ maxPads ≤ i) → s.pads[i.toNat]? = some pad →
      pad.loaded = true → pad.buffer = some b →
      play s i = some (playBuffer b.duration pad.trimStart pad.trimEnd)) ∧
    play (setTrimPoints sampleState 0 (1 / 2) (3 / 2)) 0 = some (1 / 2, 1) := by
  refine ⟨?_, ?_, ?_⟩
  · intro dur st en
    refine ⟨rfl, ?_, ?_⟩
    · dsimp [playBuffer]
      ring
    · dsimp [playBuffer]
      have h := le_max_left (max 0 (min st dur)) (min en dur)
      linarith
  · intro s i pad b hv hget hl hb
    simp [play, if_neg hv, hget, hl, hb]
  · have e : play (setTrimPoints sampleState 0 (1 / 2) (3 / 2)) 0 =
        some (playBuffer bufTwo.duration (max 0 (1 / 2)) (min bufTwo.duration (3 / 2))) := rfl
    rw [e]
    norm_num [playBuffer, bufTwo, max_def, min_def]

/-- Witness for C3 on the concrete loaded state: `play(0)` of
`sampleState` issues the `_playBuffer` request for its stored trim
window, the full 2-second buffer. -/
theorem play_trim_window_witness :
    play sampleState 0 =
      some (playBuffer bufTwo.duration kickPad.trimStart kickPad.trimEnd) ∧
    playBuffer bufTwo.duration kickPad.trimStart kickPad.trimEnd = (0, 2) :=
  ⟨play_trim_window.2.1 sampleState 0 kickPad bufTwo (by decide) rfl rfl rfl,
   by norm_num [playBuffer, bufTwo, kickPad, max_def, min_def]⟩

/-- C9 (amended): `clearAll` resets every pad's `buffer`, `loaded`,
`trimStart` and `trimEnd` to the empty-pad defaults, while `name`,
`gain` and `index` keep their previous values. -/
theorem clearAll_resets (s : EngineState) (i : ℕ) (h : i < s.pads.length) :
    (clearAll s).pads[i]? =
      some { index := s.pads[i].index, buffer := none, name := s.pads[i].name,
             loaded := false, trimStart := 0, trimEnd := 1,
             gain := s.pads[i].gain } := by
  simp [clearAll, List.getElem?_eq_getElem h]

/-- Witness for C9: clearing `sampleState` leaves pad 0 with its loaded
name "kick" and gain, but empties the buffer and resets the trim
window. -/
theorem clearAll_resets_witness :
    (clearAll sampleState).pads[0]? =
      some { index := kickPad.index, buffer := none, name := kickPad.name,
             loaded := false, trimStart := 0, trimEnd := 1,
             gain := kickPad.gain } := by
  have h := clearAll_resets sampleState 0 (by decide)
  exact h

/-- C9 counterexample: after `clearAll` on a state whose pad 0 was
loaded as "kick", the pad's name is still "kick", not the initial
placeholder `Pad 1` — `clearAll` does not reset the `name` field. -/
theorem clearAll_keeps_name_cex :
    Option.map Pad.name ((clearAll sampleState).pads[0]?) = some "kick" ∧
    "kick" ≠ defaultPadName 0 := ⟨rfl, by decide⟩

/-- C10: a successful `loadSound(i, bytes, name)` rewrites exactly the
pad's `buffer`, `name`, `loaded` and `trimEnd`; the pad's `trimStart`,
`gain` and `index` are carried over unchanged, and every other pad slot
of the array is untouched. -/
theorem loadSound_frame (s : EngineState) (i : ℤ) (b : ABuffer)
    (nm : Option String) (pad : Pad)
    (hv : ¬(i < 0 ∨ maxPads ≤ i)) (hget : s.pads[i.toNat]? = some pad) :
    loadSound s i b nm =
      some ⟨s.pads.set i.toNat
        { index := pad.index, buffer := some b, name := resolveName nm i.toNat,
          loaded := true, trimStart := pad.trimStart, trimEnd := b.duration,
          gain := pad.gain }⟩ ∧
    ∀ j : ℕ, j ≠ i.toNat →
      (s.pads.set i.toNat
        { index := pad.index, buffer := some b, name := resolveName nm i.toNat,
          loaded := true, trimStart := pad.trimStart, trimEnd := b.duration,
          gain := pad.gain })[j]? = s.pads[j]? := by
  constructor
  · simp [loadSound, if_neg hv, hget]
  · intro j hj
    exact List.getElem?_set_ne (Ne.symm hj)

/-- Witness for C10: reloading pad 0 of `reState` (whose trim window is
`[3/2, 2]`) with a 1-second buffer keeps `trimStart` at `3/2` — which
now exceeds the new duration 1 — and keeps `gain`. -/
theorem loadSound_frame_witness :
    loadSound reState 0 ⟨1⟩ (some "snare") =
      some ⟨reState.pads.set (0 : ℤ).toNat
        { index := rePad.index, buffer := some ⟨1⟩,
          name := resolveName (some "snare") (0 : ℤ).toNat, loaded := true,
          trimStart := rePad.trimStart, trimEnd := (⟨1⟩ : ABuffer).duration,
          gain := rePad.gain }⟩ ∧
    rePad.trimStart = 3 / 2 ∧ (1 : ℚ) < rePad.trimStart :=
  ⟨(loadSound_frame reState 0 ⟨1⟩ (some "snare") rePad (by decide) rfl).1,
   by norm_num [rePad], by norm_num [rePad]⟩

/-- Helper: membership in a list after `set` comes from the old list or
is the new element. -/
theorem pad_mem_of_getElem {l : List Pad} {n : ℕ} {a : Pad}
    (h : l[n]? = some a) : a ∈ l :=
  List.get?_mem (by rw [List.get?_eq_getElem?]; exact h)

/-- Helper invariant carried by every reachable engine state: every pad
has a non-negative `trimStart`, and every loaded pad holds a buffer
whose duration bounds `trimEnd` from above. -/
theorem reachable_pad_inv {s : EngineState} (hs : Reachable s) :
    ∀ p ∈ s.pads, 0 ≤ p.trimStart ∧
      (p.loaded = true → ∃ b, p.buffer = some b ∧ p.trimEnd ≤ b.duration) := by
  induction hs with
  | init =>
    intro p hp
    simp only [initState, initializePads, List.mem_map, List.mem_range] at hp
    obtain ⟨j, -, rfl⟩ := hp
    exact ⟨le_refl 0, by simp⟩
  | load i b nm hr heq ih =>
    intro p hp
    rw [loadSound] at heq
    split at heq
    · exact absurd heq (by simp)
    · split at heq
      · exact absurd heq (by simp)
      · rename_i pad hget
        rw [Option.some_inj] at heq
        rw [← heq] at hp
        rcases List.mem_or_eq_of_mem_set hp with hmem | rfl
        · exact ih p hmem
        · exact ⟨(ih pad (pad_mem_of_getElem hget)).1,
            fun _ => ⟨b, rfl, le_refl _⟩⟩
  | trim i st en hr ih =>
    intro p hp
    rw [setTrimPoints] at hp
    split at hp
    · exact ih p hp
    · split at hp
      · exact ih p hp
      · rename_i pad hget
        split at hp
        · split at hp
          · rename_i b hbuf
            rcases List.mem_or_eq_of_mem_set hp with hmem | rfl
            · exact ih p hmem
            · exact ⟨le_max_left 0 st, fun _ => ⟨b, hbuf, min_le_left _ _⟩⟩
          · exact ih p hp
        · exact ih p hp
  | reset i hr ih =>
    intro p hp
    rw [resetPad] at hp
    split at hp
    · exact ih p hp
    · split at hp
      · exact ih p hp
      · rename_i pad hget
        split at hp
        · split at hp
          · rename_i b hbuf
            rcases List.mem_or_eq_of_mem_set hp with hmem | rfl
            · exact ih p hmem
            · exact ⟨le_refl 0, fun _ => ⟨b, hbuf, le_refl _⟩⟩
          · exact ih p hp
        · exact ih p hp
  | clear hr ih =>
    intro p hp
    rw [clearAll] at hp
    obtain ⟨q, -, rfl⟩ := List.mem_map.mp hp
    exact ⟨le_refl 0, by simp⟩

/-- C1 (amended): in every reachable engine state, every loaded pad
holds a buffer with `0 ≤ trimStart` and `trimEnd ≤ buffer.duration`;
the middle inequality `trimStart ≤ trimEnd` of the claimed chain (and
with it `trimStart ≤ duration`, `0 ≤ trimEnd`) is not an invariant,
since `setTrimPoints` assigns its clamped arguments without
reordering. -/
theorem trim_window_partial_invariant {s : EngineState} (hs : Reachable s) :
    ∀ p ∈ s.pads, p.loaded = true →
      ∃ b, p.buffer = some b ∧ 0 ≤ p.trimStart ∧ p.trimEnd ≤ b.duration := by
  intro p hp hl
  obtain ⟨h1, h2⟩ := reachable_pad_inv hs p hp
  obtain ⟨b, hb, hle⟩ := h2 hl
  exact ⟨b, hb, h1, hle⟩

/-- Helper: the one-load state is reachable. -/
theorem reachable_sampleState : Reachable sampleState :=
  Reachable.load 0 bufTwo (some "kick") Reachable.init rfl

/-- Witness for C1 on the concrete reachable state `sampleState`. -/
theorem trim_window_partial_invariant_witness :
    ∃ b, kickPad.buffer = some b ∧ 0 ≤ kickPad.trimStart ∧
      kickPad.trimEnd ≤ b.duration :=
  trim_window_partial_invariant reachable_sampleState kickPad (by decide) rfl

/-- Pad 0 of `cexTrimState`, exactly as `setTrimPoints(0, 3, -1)`
stored it. -/
def cexPad : Pad :=
  { index := 0, buffer := some bufTwo, name := "kick", loaded := true,
    trimStart := max 0 3, trimEnd := min bufTwo.duration (-1), gain := 1 }

/-- C1 counterexample: the reachable state obtained by loading a
2-second buffer on pad 0 and calling `setTrimPoints(0, 3, -1)` leaves
the loaded pad with `trimStart = 3` and `trimEnd = -1`, violating all
of `trimStart ≤ trimEnd`, `trimEnd ≥ 0` and `trimStart ≤ duration`
from the claimed chain `0 ≤ trimStart ≤ trimEnd ≤ buffer.duration`. -/
theorem trim_window_invariant_cex :
    Reachable cexTrimState ∧
    cexTrimState.pads[0]? = some cexPad ∧
    cexPad.loaded = true ∧
    cexPad.trimStart = 3 ∧ cexPad.trimEnd = -1 ∧
    ¬(cexPad.trimStart ≤ cexPad.trimEnd) ∧
    ¬(0 ≤ cexPad.trimEnd) ∧
    ¬(cexPad.trimStart ≤ bufTwo.duration) := by
  refine ⟨Reachable.trim 0 3 (-1) reachable_sampleState, rfl, rfl, ?_, ?_, ?_, ?_, ?_⟩
  · norm_num [cexPad]
  · norm_num [cexPad, bufTwo, min_def]
  · norm_num [cexPad, bufTwo, min_def]
  · norm_num [cexPad, bufTwo, min_def]
  · norm_num [cexPad, bufTwo]

/-- Helper: the Assignment hit test only recolours/reselects; bar
positions, drag flags and the canvas size are untouched. -/
theorem assign_hl_fields (s : TrimState) (mx my : ℚ) :
    (Assign.highLightTrimBarsWhenClose s mx my).leftTrimBar.x = s.leftTrimBar.x ∧
    (Assign.highLightTrimBarsWhenClose s mx my).rightTrimBar.x = s.rightTrimBar.x ∧
    (Assign.highLightTrimBarsWhenClose s mx my).leftTrimBar.dragged = s.leftTrimBar.dragged ∧
    (Assign.highLightTrimBarsWhenClose s mx my).rightTrimBar.dragged = s.rightTrimBar.dragged ∧
    (Assign.highLightTrimBarsWhenClose s mx my).canvasWidth = s.canvasWidth := by
  unfold Assign.highLightTrimBarsWhenClose Assign.hlLeft Assign.hlRight
  split <;> split <;> simp

/-- Helper: one Assignment `moveTrimBars` call preserves the ordering
of the two bars. -/
theorem assign_move_preserves_order {s : TrimState}
    (h : s.leftTrimBar.x ≤ s.rightTrimBar.x) (mx my : ℚ) :
    (Assign.moveTrimBars s mx my).leftTrimBar.x ≤
      (Assign.moveTrimBars s mx my).rightTrimBar.x := by
  obtain ⟨h1, h2, -, -, -⟩ := assign_hl_fields s mx my
  have h' : (Assign.highLightTrimBarsWhenClose s mx my).leftTrimBar.x ≤
      (Assign.highLightTrimBarsWhenClose s mx my).rightTrimBar.x := by
    rw [h1, h2]; exact h
  unfold Assign.moveTrimBars
  generalize Assign.highLightTrimBarsWhenClose s mx my = t at h'
  dsimp only
  split
  · rename_i c1
    split
    · rename_i c2
      simp only at c2
      exact absurd c2.2 (lt_irrefl _)
    · simp only
      exact le_of_lt c1.2
  · split
    · rename_i c2
      simp only
      exact le_of_lt c2.2
    · exact h'

/-- Helper: the Assignment `stopDrag` preserves the ordering of the two
bars. -/
theorem assign_stop_preserves_order {s : TrimState}
    (h : s.leftTrimBar.x ≤ s.rightTrimBar.x) :
    (Assign.stopDrag s).leftTrimBar.x ≤ (Assign.stopDrag s).rightTrimBar.x := by
  unfold Assign.stopDrag
  dsimp only
  split <;> split <;> simp_all <;> split_ifs <;> simp_all

/-- Helper: one part_000 `moveTrimBars` call always leaves the bars
ordered (the trailing swap establishes the ordering even when a drag
crossed the bars). -/
theorem part0_move_orders (s : TrimState) (mx my : ℚ) :
    (Part0.moveTrimBars s mx my).leftTrimBar.x ≤
      (Part0.moveTrimBars s mx my).rightTrimBar.x := by
  unfold Part0.moveTrimBars
  generalize Part0.highLightTrimBarsWhenClose s mx my = t
  dsimp only
  split <;> split <;> split <;> simp_all <;> linarith

/-- Helper: the part_000 `stopDrag` only clears drag flags. -/
theorem part0_stop_fields (s : TrimState) :
    (Part0.stopDrag s).leftTrimBar.x = s.leftTrimBar.x ∧
    (Part0.stopDrag s).rightTrimBar.x = s.rightTrimBar.x := by
  unfold Part0.stopDrag
  exact ⟨rfl, rfl⟩

/-- Helper: a whole sequence of Assignment moves preserves ordering. -/
theorem assign_fold_preserves_order (moves : List (ℚ × ℚ)) :
    ∀ {s : TrimState}, s.leftTrimBar.x ≤ s.rightTrimBar.x →
      (moves.foldl (fun t m => Assign.moveTrimBars t m.1 m.2) s).leftTrimBar.x ≤
      (moves.foldl (fun t m => Assign.moveTrimBars t m.1 m.2) s).rightTrimBar.x := by
  induction moves with
  | nil => intro s h; exact h
  | cons m rest ih =>
    intro s h
    exact ih (assign_move_preserves_order h m.1 m.2)

/-- Helper: a whole sequence of part_000 moves preserves ordering. -/
theorem part0_fold_preserves_order (moves : List (ℚ × ℚ)) :
    ∀ {s : TrimState}, s.leftTrimBar.x ≤ s.rightTrimBar.x →
      (moves.foldl (fun t m => Part0.moveTrimBars t m.1 m.2) s).leftTrimBar.x ≤
      (moves.foldl (fun t m => Part0.moveTrimBars t m.1 m.2) s).rightTrimBar.x := by
  induction moves with
  | nil => intro s h; exact h
  | cons m rest ih =>
    intro s h
    exact ih (part0_move_orders s m.1 m.2)

/-- C7: starting from any state with `left.x ≤ right.x`, any sequence
of `moveTrimBars` calls followed by a drag release (`stopDrag`) leaves
`left.x ≤ right.x`, in both the Assignment variant (clamp-on-move plus
clamp-on-release) and the part_000 variant (swap-on-move). -/
theorem trim_bars_ordered_after_release (s : TrimState) (moves : List (ℚ × ℚ))
    (h : s.leftTrimBar.x ≤ s.rightTrimBar.x) :
    ((Assign.stopDrag (moves.foldl (fun t m => Assign.moveTrimBars t m.1 m.2) s)).leftTrimBar.x ≤
      (Assign.stopDrag (moves.foldl (fun t m => Assign.moveTrimBars t m.1 m.2) s)).rightTrimBar.x) ∧
    ((Part0.stopDrag (moves.foldl (fun t m => Part0.moveTrimBars t m.1 m.2) s)).leftTrimBar.x ≤
      (Part0.stopDrag (moves.foldl (fun t m => Part0.moveTrimBars t m.1 m.2) s)).rightTrimBar.x) := by
  constructor
  · exact assign_stop_preserves_order (assign_fold_preserves_order moves h)
  · obtain ⟨e1, e2⟩ :=
      part0_stop_fields (moves.foldl (fun t m => Part0.moveTrimBars t m.1 m.2) s)
    rw [e1, e2]
    exact part0_fold_preserves_order moves h

/-- Witness for C7: a concrete two-move drag of the left bar from
`x = 10` across the canvas, released, stays left of the right bar in
both variants. -/
theorem trim_bars_ordered_after_release_witness :
    ((Assign.stopDrag ([((105 : ℚ), (3 : ℚ)), (40, 12)].foldl
        (fun t m => Assign.moveTrimBars t m.1 m.2) tbInit)).leftTrimBar.x ≤
      (Assign.stopDrag ([((105 : ℚ), (3 : ℚ)), (40, 12)].foldl
        (fun t m => Assign.moveTrimBars t m.1 m.2) tbInit)).rightTrimBar.x) ∧
    ((Part0.stopDrag ([((105 : ℚ), (3 : ℚ)), (40, 12)].foldl
        (fun t m => Part0.moveTrimBars t m.1 m.2) tbInit)).leftTrimBar.x ≤
      (Part0.stopDrag ([((105 : ℚ), (3 : ℚ)), (40, 12)].foldl
        (fun t m => Part0.moveTrimBars t m.1 m.2) tbInit)).rightTrimBar.x) :=
  trim_bars_ordered_after_release tbInit [(105, 3), (40, 12)] (by norm_num [tbInit])

/-- C8 (amended): after every Assignment-variant hit test at most one
of the two trim bars is selected — the two `selected` flags are never
both true — but the winner is decided by check order and the previous
selection state: the left bar is selected exactly when it is within the
threshold and the right bar was not already selected, regardless of
which bar is nearer.  (The part_000 variant computes the two selections
independently, so it has no such exclusivity — see the
counterexample.) -/
theorem hit_test_mutually_exclusive (s : TrimState) (mx my : ℚ) :
    ((Assign.highLightTrimBarsWhenClose s mx my).leftTrimBar.selected &&
      (Assign.highLightTrimBarsWhenClose s mx my).rightTrimBar.selected) = false ∧
    (Assign.highLightTrimBarsWhenClose s mx my).leftTrimBar.selected =
      (distLt mx my s.leftTrimBar.x 18 25 && !s.rightTrimBar.selected) := by
  unfold Assign.highLightTrimBarsWhenClose Assign.hlRight Assign.hlLeft
  split <;> split <;> simp_all

/-- C8 counterexample: with the two bars at `x = 100` and `x = 110` and
nothing selected, the part_000 hit test at pointer `(105, 0)` selects
BOTH bars (its two proximity checks are independent), and the
Assignment hit test at pointer `(108, 18)` selects the LEFT bar even
though the right bar is strictly nearer (squared distance 4 versus 64),
because the left check runs first. -/
theorem hit_test_cex :
    (Part0.highLightTrimBarsWhenClose closeBars 105 0).leftTrimBar.selected = true ∧
    (Part0.highLightTrimBarsWhenClose closeBars 105 0).rightTrimBar.selected = true ∧
    ((108 : ℚ) - 110) * (108 - 110) < ((108 : ℚ) - 100) * (108 - 100) ∧
    (Assign.highLightTrimBarsWhenClose closeBars 108 18).leftTrimBar.selected = true ∧
    (Assign.highLightTrimBarsWhenClose closeBars 108 18).rightTrimBar.selected = false := by
  refine ⟨?_, ?_, by norm_num, ?_, ?_⟩ <;>
    norm_num [Part0.highLightTrimBarsWhenClose, Assign.highLightTrimBarsWhenClose,
      Assign.hlLeft, Assign.hlRight, closeBars, distLt, greenColor]

/-- C5: evidence of non-termination.  For a 1-sample buffer at display
width 1 (and generally whenever `sampleSize < 10` with no explicit
`sampleStep` supplied), the derived stride `~~(sampleSize / 10)` is 0,
and the inner sampling loop `for (j = start; j < end; j += sampleStep)`
never advances: after any number `n` of iterations the counter still
satisfies the loop guard `j < start + sampleSize`, so the extraction
never completes and no envelope is produced. -/
theorem peak_extraction_stalls_on_short_buffer :
    sampleSize 1 1 = 1 ∧
    derivedSampleStep (sampleSize 1 1) = 0 ∧
    ∀ n : ℕ, innerLoopJ 0 (derivedSampleStep (sampleSize 1 1)) n < 0 + sampleSize 1 1 := by
  refine ⟨rfl, rfl, ?_⟩
  intro n
  have h : ∀ m : ℕ, innerLoopJ 0 0 m = 0 := by
    intro m
    induction m with
    | zero => rfl
    | succ k ih => simp [innerLoopJ, ih]
  show innerLoopJ 0 0 n < 0 + 1
  rw [h n]
  norm_num

/-- Helper: folding `acc + g c / n` over a list accumulates the sum of
the quotients, which equals the quotient of the sum. -/
theorem foldl_add_div (g : List ℚ → ℚ) (n : ℚ) :
    ∀ (l : List (List ℚ)) (a : ℚ),
      l.foldl (fun acc c => acc + g c / n) a = a + (l.map g).sum / n := by
  intro l
  induction l with
  | nil => intro a; simp
  | cons c t ih =>
    intro a
    simp only [List.foldl_cons, List.map_cons, List.sum_cons, ih, add_div]
    ring

/-- C6 (amended): each entry `i < W` of the envelope produced by the
Assignment chunked extractor equals the spec's description — the
arithmetic mean over all channels of the per-channel maximum absolute
sample value within block `i` of `⌈length/W⌉` contiguous samples,
subsampled by the stride.  (The frontend variant does not satisfy this:
it uses channel 0 only and averages the block — see the
counterexample.) -/
theorem envelope_entry_mean_of_channel_peaks
    (chans : List (List ℚ)) (len W step i : ℕ) (hi : i < W) :
    (assignmentPeaks chans len W step)[i]? =
      some (specEnvelopeEntry chans i (sampleSize len W) step) := by
  unfold assignmentPeaks specEnvelopeEntry processEntry
  rw [List.getElem?_map, List.getElem?_range hi]
  simp only [Option.map_some']
  congr 1
  rw [foldl_add_div
    (fun chan => channelPeak chan (i * sampleSize len W) (sampleSize len W) step)
    (chans.length : ℚ) chans 0, zero_add]

/-- Witness for C6 on a concrete stereo buffer of two frames at width
1. -/
theorem envelope_entry_mean_witness :
    (assignmentPeaks [[0, 1], [1, 1]] 2 1 1)[0]? =
      some (specEnvelopeEntry [[0, 1], [1, 1]] 0 (sampleSize 2 1) 1) :=
  envelope_entry_mean_of_channel_peaks [[0, 1], [1, 1]] 2 1 1 0 (by decide)

/-- C6 counterexample: on a stereo buffer with channel 0 = `[0, 1]` and
channel 1 = `[1, 1]` at width 1, the frontend extractor
(`getPeaksAsync` of `WaveformDrawer.ts`) produces `1/2` — the average
of channel 0's block — while the claimed mean of per-channel peaks is
`1`. -/
theorem frontend_extractor_not_mean_cex :
    frontendPeaks [0, 1] 1 = [1 / 2] ∧
    specEnvelopeEntry [[0, 1], [1, 1]] 0 (sampleSize 2 1) 1 = 1 ∧
    (1 / 2 : ℚ) ≠ 1 := by
  refine ⟨?_, ?_, by norm_num⟩
  · norm_num [frontendPeaks, jsAbs, List.range_succ]
  · norm_num [specEnvelopeEntry, channelPeak, strideIndices, strideIndicesAux,
      sampleSize, jsAbs, max_def]

/-- C4: evidence that the silent-buffer guard is absent.  For the
all-zero peak envelope `[0, 0, 0]` at height 100, the scale coefficient
divisor `2 * max(peaks)` is exactly 0 and the division is still
performed: under JS number semantics `coef` evaluates to Infinity and
every vertex offset to `round(0 * Infinity) = NaN` — not the claimed
offset 0 of a flat center line. -/
theorem silent_waveform_divide_by_zero_cex :
    wdMax [0, 0, 0] = JSNum.num 0 ∧
    jsMul (JSNum.num 2) (wdMax [0, 0, 0]) = JSNum.num 0 ∧
    drawCoef [0, 0, 0] 100 = JSNum.posInf ∧
    vertexOffset [0, 0, 0] 100 0 = JSNum.nan ∧
    JSNum.nan ≠ JSNum.num 0 := by
  have h1 : wdMax [0, 0, 0] = JSNum.num 0 := by
    norm_num [wdMax, jsGt]
  have h2 : jsMul (JSNum.num 2) (wdMax [0, 0, 0]) = JSNum.num 0 := by
    rw [h1]
    norm_num [jsMul]
  have h3 : drawCoef [0, 0, 0] 100 = JSNum.posInf := by
    unfold drawCoef
    rw [h2]
    norm_num [jsDiv]
  have h4 : vertexOffset [0, 0, 0] 100 0 = JSNum.nan := by
    unfold vertexOffset
    rw [h3]
    norm_num [jsMul, jsRound]
  exact ⟨h1, h2, h3, h4, by simp⟩
